import Mathlib

/-!
Verification development for the multi-agent customized-bus rollout model
(`MA_CB_RP_Major` in `off_magent_model.py`).

The Python code drives ten hand-unrolled agents (`dynamic1` … `dynamic10`,
`mask1` … `mask10`, `agent_mask1` … `agent_mask10`) through a tick loop.
External collaborators (`update_od`, `update_tw`, `update_fn`, `mask_fn`,
`mask_start`) and the neural policy are modelled as oracle parameters; the
scheduler, mask bookkeeping, broadcast, queue maintenance and sequence
accumulation — the core logic — are translated directly.

Conventions of the shallow embedding:
* tensors are total functions (`instance → channel → station → ℚ`); indices
  beyond the real tensor extent are unobservable junk, matching the fact that
  the Python tensors simply do not have those entries;
* masks are `ℕ`-valued (the core code only ever writes 0 or 1 into them), so
  `tensor.byte().any()` becomes `sum ≠ 0`;
* the per-agent collections `dynamic1..dynamic10` etc. are `ℕ`-indexed
  families whose meaningful indices are 1..10 (the model is faithful for
  `Agent_n ≤ 11`; larger values crash the Python code at initialization);
* the rollout state additionally records a ghost trace (per-tick scheduling
  indicators, the per-tick action list, an activity-mask snapshot) used only
  to observe the run.
-/

namespace OffCB

/-- A dynamic tensor slice for one agent: instance → channel → station → value.
(Python shape `(batch, features, num_stations)`.) -/
abbrev Dyn : Type := ℕ → ℕ → ℕ → ℚ

/-- A candidate-feasibility or activity mask: instance → station → {0,1} as ℕ. -/
abbrev Mask : Type := ℕ → ℕ → ℕ

/-- The time-window mask `tw_mask`: instance → demand row → station → value. -/
abbrev Tw : Type := ℕ → ℕ → ℕ → ℚ

/-- One pending dispatch event `[scheduled_time, agent_id]`. -/
abbrev QEntry : Type := ℚ × ℕ

/-- One instance's decision queue (`decision_list[ns]`). -/
abbrev Queue : Type := List QEntry

/-- Sum of `f 0 + f 1 + ... + f (n-1)`: a row reduction like `tensor.sum(1)`. -/
def rowSumN (f : ℕ → ℕ) : ℕ → ℕ
  | 0 => 0
  | n + 1 => rowSumN f n + f n

/-- Sum of a whole `B × S` mask, used for `mask.byte().any()` checks
(a `ℕ`-valued mask has a nonzero entry iff its sum is nonzero). -/
def matSum (m : Mask) (B S : ℕ) : ℕ :=
  rowSumN (fun i => rowSumN (m i) S) B

/-- `mask_judge = agent_mask1 + ... + agent_mask10` summed over all entries.
The Python code always sums the ten hard-coded masks, independently of the
fleet size `Agent_n`. -/
def judgeSum (am : ℕ → Mask) (B S : ℕ) : ℕ :=
  rowSumN (fun k => matSum (am (k + 1)) B S) 10

/-- Action selection after the masked softmax (`ptrK`/`logpK` from lines such
as 512–523).  `ptrRaw`/`logpRaw` abstract the sampled index and its
log-probability (training) or the arg-max index and the log of its maximal
probability (evaluation); `d` is the per-instance 0/1 scheduling indicator
`decision_mask_tensor`.  Training multiplies both results by `d`; evaluation
multiplies only the index (`logpK = probK.log()` is recorded unscaled). -/
def selectAction (training : Bool) (ptrRaw : ℕ → ℕ) (logpRaw : ℕ → ℚ)
    (d : ℕ → ℕ) : (ℕ → ℕ) × (ℕ → ℚ) :=
  (fun i => ptrRaw i * d i,
   fun i => if training then logpRaw i * (d i : ℚ) else logpRaw i)

/-- The simultaneous cohort extracted from one instance's queue: the head of
the (sorted) queue together with every later entry whose `scheduled_time`
equals the head's (lines 328–345). -/
def cohortOf : Queue → List QEntry
  | [] => []
  | h :: t => h :: t.filter (fun e => decide (e.1 = h.1))

/-- `list.remove(value)`: delete the first occurrence of `e`. -/
def eraseEntry : List QEntry → QEntry → List QEntry
  | [], _ => []
  | x :: xs, e => if x = e then xs else x :: eraseEntry xs e

/-- The live queue after the cohort entries have been removed one by one
(`decision_list[ns0].remove(...)`). -/
def afterExtract (q : Queue) : Queue :=
  (cohortOf q).foldl eraseEntry q

/-- The depot fallback applied after every `mask_start` refresh: any instance
row whose mask sums to zero is reset to `{0}` valid
(`mask[visit_idx, 0] = 1; mask[visit_idx, 1:] = 0`). -/
def depotFallback (m : Mask) (S : ℕ) : Mask :=
  fun i s => if rowSumN (m i) S = 0 then (if s = 0 then 1 else 0) else m i s

/-- The constructor of `MA_CB_RP_Major`, reduced to its explicit validation:
only `dynamic_size < 1` raises a `ValueError`; `Agent_n` and the other size
parameters are stored/used unchecked. -/
structure CBModel where
  static_size : ℤ
  dynamic_size : ℤ
  hidden_size : ℤ
  agent_number : ℤ

def initModel (static_size dynamic_size hidden_size Agent_n : ℤ) :
    Except String CBModel :=
  if dynamic_size < 1 then
    .error ":param dynamic_size: must be > 0, even if the problem has no dynamic elements"
  else
    .ok ⟨static_size, dynamic_size, hidden_size, Agent_n⟩

/-! ## The rollout state machine -/

/-- The mutable state of one `forward` call.  `dynCur k` is the live tensor
`dynamic{k}` (k = 1..10); `dynList k` is entry `k-1` of the auxiliary Python
list `dynamic` (the most recent `update_od` output, which does not include
later in-tick per-agent updates); `dmask` is `decision_mask_dict`. -/
structure RState where
  queues : List Queue
  dynCur : ℕ → Dyn
  dynList : ℕ → Dyn
  mask : ℕ → Mask
  agentMask : ℕ → Mask
  tw : Tw
  recs : ℕ → Dyn
  tourIdx : ℕ → List (ℕ → ℕ)
  tourLogp : ℕ → List (ℕ → ℚ)
  tourDict : ℕ → ℕ → List ℕ
  dmask : ℕ → ℕ → ℕ

/-- The external collaborators and the neural policy, as oracles.  `L` is the
type of the opaque `line_stop_tw` value passed from `update_tw` to
`update_fn`.  The `static`, `up_station`, `travel_time_G` and `all_station`
arguments of the Python collaborators are fixed per rollout and live in the
oracle closures. -/
structure Ext (L : Type) where
  update_od : (ℕ → Dyn) → (ℕ → Dyn) → Tw → (ℕ → Dyn) × (ℕ → Dyn)
  policy : ℕ → RState → (ℕ → ℕ) × (ℕ → ℚ)
  update_tw : Dyn → (ℕ → ℕ) → (ℕ → Dyn) → ℕ → Tw → (ℕ → Dyn) × L × Tw
  update_fn : Option (Dyn → (ℕ → ℕ) → (ℕ → Dyn) → (ℕ → List ℕ) → L → Dyn × (ℕ → Dyn))
  mask_fn : Option (Mask → Dyn → Mask → (ℕ → ℕ) → Mask × Mask)
  mask_start : Mask → Dyn → Tw → Mask → Mask × Mask

/-- Rollout parameters: fleet size `N` (= `Agent_n`), batch size `B`, station
count `S` (= `sequence_size`), boarding-station count `nUp`
(= `len(up_station)`), and the module's train/eval flag. -/
structure Params (L : Type) where
  ext : Ext L
  N : ℕ
  B : ℕ
  S : ℕ
  nUp : ℕ
  training : Bool

/-- Pointwise update of an agent-indexed family at index `a`. -/
def updFam {α : Type} (f : ℕ → α) (a : ℕ) (v : α) : ℕ → α :=
  fun b => if b = a then v else f b

/-- The ghost per-tick observation record: the scheduling indicators
(`decision_mask_dict`) of the tick, the final per-tick action list
(`decision_agent_id`), a snapshot of the activity masks at the termination
check, and whether the termination check fired. -/
structure TickLog where
  dmask : ℕ → ℕ → ℕ
  acted : List ℕ
  amSnap : ℕ → Mask
  judgeZero : Bool

/-- Effect of the cohort extraction on one agent's dynamic tensor: instances
with a non-empty queue get channel 5 overwritten by channel 10 of the
queue-head agent's entry in the auxiliary `dynamic` list `dl`
(`dynamicK_cl0[ns0][5] = dynamic[ns0a[0][1] - 1][ns0][10]`). -/
def extractDyn (queues : List Queue) (dl : ℕ → Dyn) (dc : Dyn) : Dyn :=
  fun i c s =>
    match queues.getD i [] with
    | [] => dc i c s
    | h :: _ => if c = 5 then dl h.2 i 10 s else dc i c s

/-- The cohort-extraction phase opening a tick (lines 314–355): reset and set
the scheduling indicators, remove the cohort from each live queue, and apply
`extractDyn` to every agent's live tensor. -/
def extractPhase (s : RState) : RState :=
  { s with
    dmask := fun a i =>
      if (cohortOf (s.queues.getD i [])).any (fun e => decide (e.2 = a)) then 1 else 0
    dynCur := fun k => extractDyn s.queues s.dynList (s.dynCur k)
    queues := s.queues.map afterExtract }

/-- The global demand update (lines 356–385): one `update_od` call per tick;
its output becomes both the live tensors `dynamic1..10` and the auxiliary
list `dynamic`. -/
def odPhase {L : Type} (p : Params L) (s : RState) : RState :=
  let r := p.ext.update_od s.dynCur s.recs s.tw
  { s with dynCur := r.1, dynList := r.1, recs := r.2 }

/-- One baseline mask refresh: `mask_start` followed by the depot fallback. -/
def refreshMask {L : Type} (ext : Ext L) (mk : Mask) (dk : Dyn) (tw : Tw)
    (amk : Mask) (S : ℕ) : Mask × Mask :=
  let r := ext.mask_start mk dk tw amk
  (depotFallback r.1 S, r.2)

/-- The fleet's agent ids `range(1, Agent_n)` = `[1, ..., Agent_n - 1]`. -/
def fleetList (N : ℕ) : List ℕ := List.range' 1 (N - 1)

/-- One step of the pre-action refresh loop (lines 395–505): refresh agent
`a`'s masks; drop `a` from `decision_agent_id` when its whole candidate mask
(the raw `mask_start` output, before the fallback) is zero. -/
def refreshDropBody {L : Type} (p : Params L) (sa : RState × List ℕ) (a : ℕ) :
    RState × List ℕ :=
  let r := p.ext.mask_start (sa.1.mask a) (sa.1.dynCur a) sa.1.tw (sa.1.agentMask a)
  ({ sa.1 with
      mask := updFam sa.1.mask a (depotFallback r.1 p.S),
      agentMask := updFam sa.1.agentMask a r.2 },
   sa.2 ++ if matSum r.1 p.B p.S = 0 then [] else [a])

/-- The pre-action refresh over the whole fleet, producing the tick's action
list `decision_agent_id`. -/
def refreshDropPhase {L : Type} (p : Params L) (s : RState) : RState × List ℕ :=
  (fleetList p.N).foldl (refreshDropBody p) (s, [])

/-- The raw policy output for agent `a` multiplied by its per-instance
scheduling indicator: the recorded action index `ptrK`. -/
def actPtr {L : Type} (p : Params L) (s : RState) (a : ℕ) : ℕ → ℕ :=
  (selectAction p.training (p.ext.policy a s).1 (p.ext.policy a s).2 (s.dmask a)).1

/-- The recorded log-probability `logpK` (indicator-scaled only in training). -/
def actLogp {L : Type} (p : Params L) (s : RState) (a : ℕ) : ℕ → ℚ :=
  (selectAction p.training (p.ext.policy a s).1 (p.ext.policy a s).2 (s.dmask a)).2

/-- The `update_tw` call of agent `a`'s action. -/
def actTw {L : Type} (p : Params L) (s : RState) (a : ℕ) : (ℕ → Dyn) × L × Tw :=
  p.ext.update_tw (s.dynCur a) (actPtr p s a) s.recs a s.tw

/-- Agent `a`'s post-action dynamic tensor and records: the `update_fn`
result when present, otherwise unchanged. -/
def actDyn {L : Type} (p : Params L) (s : RState) (a : ℕ) : Dyn × (ℕ → Dyn) :=
  match p.ext.update_fn with
  | none => (s.dynCur a, (actTw p s a).1)
  | some f => f (s.dynCur a) (actPtr p s a) (actTw p s a).1 (s.tourDict a) (actTw p s a).2.1

/-- Queue push after an action (lines 575–577): instance `i` gets a new entry
`(next_time, a)` appended exactly when the recorded index is nonzero, with
`next_time = dyn'[i][10][0]`. -/
def pushQueues (ptr : ℕ → ℕ) (v : ℕ → ℚ) (a : ℕ) : ℕ → List Queue → List Queue
  | _, [] => []
  | i, q :: rest =>
    (if ptr i ≠ 0 then q ++ [(v i, a)] else q) :: pushQueues ptr v a (i + 1) rest

/-- One agent's full action block (lines 506–1301 for its `a_n == K` branch):
action selection, `update_tw`, `update_fn`, the broadcast of channels 1..3
over the boarding stations to every peer, the queue pushes, the sequence
appends, and the post-action `mask_fn`. -/
def actOne {L : Type} (p : Params L) (s : RState) (a : ℕ) : RState :=
  let ptr := actPtr p s a
  let dyn' := (actDyn p s a).1
  let mres : Mask × Mask :=
    match p.ext.mask_fn with
    | none => (s.mask a, s.agentMask a)
    | some mf => mf (s.mask a) dyn' (s.agentMask a) ptr
  { s with
    dynCur := fun j =>
      if j = a then dyn'
      else fun i c st =>
        if 1 ≤ c ∧ c < 4 ∧ st < p.nUp then dyn' i c st else s.dynCur j i c st
    queues := pushQueues ptr (fun i => dyn' i 10 0) a 0 s.queues
    recs := (actDyn p s a).2
    tw := (actTw p s a).2.2
    tourIdx := updFam s.tourIdx a (s.tourIdx a ++ [ptr])
    tourLogp := updFam s.tourLogp a (s.tourLogp a ++ [actLogp p s a])
    tourDict := fun b i =>
      if b = a ∧ ptr i ≠ 0 then s.tourDict a i ++ [ptr i] else s.tourDict b i
    mask := updFam s.mask a mres.1
    agentMask := updFam s.agentMask a mres.2 }

/-- One refresh of the trailing loop: baseline refresh with fallback, without
any `decision_agent_id` removal. -/
def innerBody {L : Type} (p : Params L) (st : RState) (a : ℕ) : RState :=
  let r := refreshMask p.ext (st.mask a) (st.dynCur a) st.tw (st.agentMask a) p.S
  { st with mask := updFam st.mask a r.1, agentMask := updFam st.agentMask a r.2 }

/-- The trailing refresh after agent `an`'s action
(`for ag_id in range(a_n+1, self.agent_number)`, lines 1303–1398). -/
def innerRefresh {L : Type} (p : Params L) (s : RState) (an : ℕ) : RState :=
  (List.range' (an + 1) (p.N - 1 - an)).foldl (innerBody p) s

/-- One agent of the action phase: its action block, then its trailing
refresh loop. -/
def actStep {L : Type} (p : Params L) (st : RState) (a : ℕ) : RState :=
  innerRefresh p (actOne p st a) a

/-- The action phase of a tick: each agent of `decision_agent_id` in order. -/
def actPhase {L : Type} (p : Params L) (s : RState) (acted : List ℕ) : RState :=
  acted.foldl (actStep p) s

/-- Stable insertion of a queue entry before the first entry of
greater-or-equal time. -/
def insertEntry (e : QEntry) : Queue → Queue
  | [] => [e]
  | x :: xs => if e.1 ≤ x.1 then e :: x :: xs else x :: insertEntry e xs

/-- Stable sort of a queue by ascending `scheduled_time`
(`list.sort(..., key=(lambda x: [x[0]]))`, Python's sort being stable). -/
def sortQueue : Queue → Queue
  | [] => []
  | x :: xs => insertEntry x (sortQueue xs)

/-- Queue resort closing a tick (lines 1399–1400). -/
def resortPhase (s : RState) : RState :=
  { s with queues := s.queues.map sortQueue }

/-- One full tick.  Returns the new state, the tick's observation record, and
whether the termination check (`if not mask_judge.byte().any(): break`,
lines 389–394) fired. -/
def tick {L : Type} (p : Params L) (s : RState) : RState × TickLog × Bool :=
  let s1 := odPhase p (extractPhase s)
  if judgeSum s1.agentMask p.B p.S = 0 then
    (s1, ⟨s1.dmask, [], s1.agentMask, true⟩, true)
  else
    let r := refreshDropPhase p s1
    (resortPhase (actPhase p r.1 r.2), ⟨s1.dmask, r.2, s1.agentMask, false⟩, false)

/-- The bounded tick loop (`for _ in range(max_steps)`), with the executed
ticks' observation records. -/
def runLoop {L : Type} (p : Params L) : ℕ → RState → RState × List TickLog
  | 0, s => (s, [])
  | f + 1, s =>
    let r := tick p s
    if r.2.2 then (r.1, [r.2.1])
    else
      let rest := runLoop p f r.1
      (rest.1, r.2.1 :: rest.2)

/-- Initial candidate mask: depot and every station past the boarding range
closed (`mask[:, 0] = 0; mask[:, len(up_station):] = 0`). -/
def maskInit (nUp : ℕ) : Mask := fun _ s => if s = 0 ∨ nUp ≤ s then 0 else 1

/-- Initial activity mask (`agent_mask[:, 0] = 0`). -/
def agentMaskInit : Mask := fun _ s => if s = 0 then 0 else 1

/-- Initial time-window mask (`tw_mask[:, 0:, 0] = 0;
tw_mask[:, 0:, len(up_station):] = 0`). -/
def twInit (nUp : ℕ) : Tw := fun _ _ s => if s = 0 ∨ nUp ≤ s then 0 else 1

/-- Initial decision queues (lines 197–203): one entry per fleet agent, with
time read from channel 7, column 0 of that agent's input tensor, sorted. -/
def initQueues (N B : ℕ) (dyn0 : ℕ → Dyn) : List Queue :=
  (List.range B).map (fun i => sortQueue ((fleetList N).map (fun a => (dyn0 a i 7 0, a))))

/-- The state at rollout start. -/
def initState {L : Type} (p : Params L) (dyn0 recs0 : ℕ → Dyn) : RState :=
  { queues := initQueues p.N p.B dyn0
    dynCur := dyn0
    dynList := dyn0
    mask := fun _ => maskInit p.nUp
    agentMask := fun _ => agentMaskInit
    tw := twInit p.nUp
    recs := recs0
    tourIdx := fun _ => []
    tourLogp := fun _ => []
    tourDict := fun _ _ => []
    dmask := fun _ _ => 0 }

/-- The step cap: `sequence_size` when `mask_fn` is absent, else 1000. -/
def maxSteps {L : Type} (ext : Ext L) (S : ℕ) : ℕ :=
  if ext.mask_fn.isNone then S else 1000

/-- The value of one `forward` call: the per-agent index and log-probability
sequences keyed by agent id (the concatenation over ticks read per instance),
the final records and live tensors, plus the ghost trace and final state. -/
structure RolloutResult where
  tours : List (ℕ × (ℕ → List ℕ))
  logps : List (ℕ × (ℕ → List ℚ))
  recsOut : ℕ → Dyn
  dynsOut : ℕ → Dyn
  trace : List TickLog
  final : RState

/-- The whole `forward` call. -/
def rollout {L : Type} (p : Params L) (dyn0 recs0 : ℕ → Dyn) : RolloutResult :=
  let r := runLoop p (maxSteps p.ext p.S) (initState p dyn0 recs0)
  { tours := (fleetList p.N).map (fun a => (a, fun i => (r.1.tourIdx a).map (fun v => v i)))
    logps := (fleetList p.N).map (fun a => (a, fun i => (r.1.tourLogp a).map (fun v => v i)))
    recsOut := r.1.recs
    dynsOut := r.1.dynCur
    trace := r.2
    final := r.1 }

/-! ## Concrete instantiations used to exercise the model

Small executable collaborator sets and inputs.  `idExt` leaves every tensor
unchanged and lets the policy always propose station 1 with log-probability
−1; `zeroActivityExt` additionally makes `mask_start` clear the activity
mask.  `demoDyn` gives agent 1 initial dispatch time 0 and next-time 7, and
every other agent initial dispatch time 5 and next-time 9. -/

def idExt : Ext Unit :=
  { update_od := fun d r _ => (d, r)
    policy := fun _ _ => (fun _ => 1, fun _ => -1)
    update_tw := fun _ _ r _ tw => (r, (), tw)
    update_fn := none
    mask_fn := none
    mask_start := fun mk _ _ amk => (mk, amk) }

def zeroActivityExt : Ext Unit :=
  { idExt with mask_start := fun mk _ _ _ => (mk, fun _ _ => 0) }

def demoDyn : ℕ → Dyn := fun a _ c st =>
  if c = 7 ∧ st = 0 then (if a = 1 then 0 else 5)
  else if c = 10 ∧ st = 0 then (if a = 1 then 7 else 9)
  else 0

def zeroRecs : ℕ → Dyn := fun _ _ _ _ => 0

/-- Fleet `Agent_n = 3` (two acting agents), one instance, two stations. -/
def demoParamsA : Params Unit := ⟨idExt, 3, 1, 2, 2, true⟩

def demoA : RolloutResult := rollout demoParamsA demoDyn zeroRecs

/-- Fleet `Agent_n = 2` (one acting agent) whose activity mask is cleared by
`mask_start` on the first tick. -/
def demoParamsB : Params Unit := ⟨zeroActivityExt, 2, 1, 2, 2, true⟩

def demoB : RolloutResult := rollout demoParamsB demoDyn zeroRecs

/-- The state demoParamsA's rollout starts from. -/
def stateA : RState := initState demoParamsA demoDyn zeroRecs

def dummyLog : TickLog := ⟨fun _ _ => 0, [], fun _ _ _ => 0, false⟩

def zeroMask : Mask := fun _ _ => 0

/-- A sorted queue with a two-entry tie cohort at the minimum time. -/
def wQueue : Queue := [((1 : ℚ), 1), ((1 : ℚ), 2), ((2 : ℚ), 3)]

/-- A state in which the live tensors and the auxiliary `dynamic` list
disagree (constant 1 versus constant 2), with agent 1 pending in the single
instance's queue. -/
def splitState : RState :=
  { queues := [[((0 : ℚ), 1)]]
    dynCur := fun _ _ _ _ => 1
    dynList := fun _ _ _ _ => 2
    mask := fun _ => maskInit 2
    agentMask := fun _ => agentMaskInit
    tw := twInit 2
    recs := zeroRecs
    tourIdx := fun _ => []
    tourLogp := fun _ => []
    tourDict := fun _ _ => []
    dmask := fun _ _ => 0 }

/-! ## Helper lemmas -/

theorem rowSumN_succ (f : ℕ → ℕ) (n : ℕ) :
    rowSumN f (n + 1) = rowSumN f n + f n := rfl

theorem rowSumN_le_of_lt (f : ℕ → ℕ) {k n : ℕ} (h : k < n) :
    f k ≤ rowSumN f n := by
  induction n with
  | zero => omega
  | succ m ih =>
    rw [rowSumN_succ]
    rcases Nat.lt_succ_iff_lt_or_eq.mp h with h' | h'
    · exact le_trans (ih h') (Nat.le_add_right _ _)
    · subst h'; exact Nat.le_add_left _ _

theorem eraseEntry_cons_self (x : QEntry) (xs : List QEntry) :
    eraseEntry (x :: xs) x = xs := by
  simp [eraseEntry]

theorem eraseEntry_cons_ne {x e : QEntry} (xs : List QEntry) (h : x ≠ e) :
    eraseEntry (x :: xs) e = x :: eraseEntry xs e := by
  simp [eraseEntry, h]

theorem foldl_erase_skip (x : QEntry) :
    ∀ (l xs : List QEntry), (∀ e ∈ l, x ≠ e) →
      l.foldl eraseEntry (x :: xs) = x :: l.foldl eraseEntry xs := by
  intro l
  induction l with
  | nil => intro xs _; rfl
  | cons e t ih =>
    intro xs h
    rw [List.foldl_cons, List.foldl_cons,
      eraseEntry_cons_ne xs (h e (List.mem_cons_self e t))]
    exact ih (eraseEntry xs e) (fun e' he' => h e' (List.mem_cons_of_mem e he'))

theorem filter_foldl_erase (p : QEntry → Bool) :
    ∀ t : List QEntry, (t.filter p).foldl eraseEntry t = t.filter (fun e => !p e) := by
  intro t
  induction t with
  | nil => rfl
  | cons x xs ih =>
    by_cases hp : p x
    · rw [List.filter_cons_of_pos hp, List.foldl_cons, eraseEntry_cons_self,
        ih, List.filter_cons_of_neg (by simp [hp])]
    · rw [List.filter_cons_of_neg (by simpa using hp),
        foldl_erase_skip x (xs.filter p) xs
          (fun e he => fun hxe => hp (by rw [hxe]; exact (List.mem_filter.mp he).2)),
        ih, List.filter_cons_of_pos (by simp [hp])]

theorem afterExtract_cons (h : QEntry) (t : List QEntry) :
    afterExtract (h :: t) = t.filter (fun e => !decide (e.1 = h.1)) := by
  unfold afterExtract cohortOf
  rw [List.foldl_cons, eraseEntry_cons_self]
  exact filter_foldl_erase _ t

/-! ## Claim C1 — indicator scaling of the recorded index and log-probability -/

/-- C1, corrected: the recorded action index is indicator-scaled in both
modes, but the recorded log-probability is indicator-scaled only in training
mode; in evaluation mode it is `probK.log()` unscaled. -/
theorem c1_indicator_zeroing (training : Bool) (ptrRaw : ℕ → ℕ) (logpRaw : ℕ → ℚ)
    (d : ℕ → ℕ) (i : ℕ) (h : d i = 0) :
    (selectAction training ptrRaw logpRaw d).1 i = 0 ∧
    (training = true → (selectAction training ptrRaw logpRaw d).2 i = 0) ∧
    (training = false → (selectAction training ptrRaw logpRaw d).2 i = logpRaw i) := by
  refine ⟨?_, ?_, ?_⟩
  · simp [selectAction, h]
  · intro ht; simp [selectAction, ht, h]
  · intro ht; simp [selectAction, ht]

/-- C1 as stated is false: in evaluation mode, with a scheduling indicator of
0, the recorded log-probability is the unscaled input (−1 here), not 0. -/
theorem c1_counterexample :
    (selectAction false (fun _ => 3) (fun _ => -1) (fun _ => 0)).1 0 = 0 ∧
    (selectAction false (fun _ => 3) (fun _ => -1) (fun _ => 0)).2 0 = -1 ∧
    ¬ ((-1 : ℚ) = 0) := by
  refine ⟨rfl, rfl, by norm_num⟩

theorem c1_witness :
    (selectAction true (fun _ => 3) (fun _ => -1) (fun _ => 0)).1 0 = 0 ∧
    (true = true →
      (selectAction true (fun _ => 3) (fun _ => -1) (fun _ => 0)).2 0 = 0) ∧
    (true = false →
      (selectAction true (fun _ => 3) (fun _ => -1) (fun _ => 0)).2 0 =
        (fun _ : ℕ => (-1 : ℚ)) 0) :=
  c1_indicator_zeroing true (fun _ => 3) (fun _ => -1) (fun _ => 0) 0 rfl

/-! ## Claim C5 — tie-cohort extraction -/

/-- C5: on a non-empty queue sorted ascending by scheduled time, the
extracted cohort's size equals the number of entries at the minimum time,
the live queue afterwards holds exactly the entries strictly above the
minimum, and the head time is the minimum. -/
theorem c5_cohort_extraction (q : Queue) (h0 : q ≠ [])
    (hs : List.Sorted (fun a b : QEntry => a.1 ≤ b.1) q) :
    (cohortOf q).length = q.countP (fun e => decide (e.1 = (q.head h0).1)) ∧
    afterExtract q = q.tail.filter (fun e => !decide (e.1 = (q.head h0).1)) ∧
    ∀ e ∈ q, (q.head h0).1 ≤ e.1 := by
  match q, h0 with
  | h :: t, _ =>
    refine ⟨?_, ?_, ?_⟩
    · simp only [cohortOf, List.head_cons, List.length_cons,
        List.countP_cons, List.countP_eq_length_filter]
      simp
    · simpa using afterExtract_cons h t
    · intro e he
      rcases List.mem_cons.mp he with rfl | he'
      · simp
      · exact (List.sorted_cons.mp hs).1 e he'

theorem c5_witness :
    wQueue ≠ [] ∧
    List.Sorted (fun a b : QEntry => a.1 ≤ b.1) wQueue ∧
    (cohortOf wQueue).length =
      wQueue.countP (fun e => decide (e.1 = (wQueue.head (by decide)).1)) :=
  ⟨by decide, by decide,
    (c5_cohort_extraction wQueue (by decide) (by decide)).1⟩

/-! ## Claim C6 — broadcast of boarding channels to the peers -/

/-- C6: after any agent's action block, every peer's dynamic tensor agrees
with the acting agent's on channels 1–3 at the boarding-eligible stations,
for every instance; the statement carries no scheduling-indicator hypothesis
because the copy is unconditional. -/
theorem c6_broadcast {L : Type} (p : Params L) (s : RState) (a j i c st : ℕ)
    (hj : j ≠ a) (hc1 : 1 ≤ c) (hc4 : c < 4) (hst : st < p.nUp) :
    (actOne p s a).dynCur j i c st = (actOne p s a).dynCur a i c st := by
  simp [actOne, hj, hc1, hc4, hst]

theorem c6_witness :
    ((2 : ℕ) ≠ 1) ∧ (0 < demoParamsA.nUp) ∧
    (actOne demoParamsA stateA 1).dynCur 2 0 1 0 =
      (actOne demoParamsA stateA 1).dynCur 1 0 1 0 :=
  ⟨by decide, by decide,
    c6_broadcast demoParamsA stateA 1 2 0 1 0 (by decide) (by decide) (by decide)
      (by decide)⟩

/-! ## Claim C7 — depot fallback after the baseline refresh -/

/-- C7: after `mask_start`, an instance row whose candidate mask sums to zero
is reset to exactly `{0}` valid; rows with a nonzero sum are kept as the
refresh produced them. -/
theorem c7_depot_fallback {L : Type} (ext : Ext L) (mk : Mask) (dk : Dyn) (tw : Tw)
    (amk : Mask) (S i : ℕ) :
    (rowSumN ((ext.mask_start mk dk tw amk).1 i) S = 0 →
      ∀ st, (refreshMask ext mk dk tw amk S).1 i st = if st = 0 then 1 else 0) ∧
    (rowSumN ((ext.mask_start mk dk tw amk).1 i) S ≠ 0 →
      ∀ st, (refreshMask ext mk dk tw amk S).1 i st =
        (ext.mask_start mk dk tw amk).1 i st) := by
  constructor <;> intro h st <;> simp [refreshMask, depotFallback, h]

theorem c7_witness :
    rowSumN ((idExt.mask_start zeroMask (demoDyn 1) (twInit 2) agentMaskInit).1 0) 2 = 0 ∧
    (refreshMask idExt zeroMask (demoDyn 1) (twInit 2) agentMaskInit 2).1 0 0 = 1 ∧
    (refreshMask idExt zeroMask (demoDyn 1) (twInit 2) agentMaskInit 2).1 0 1 = 0 := by
  have h : rowSumN ((idExt.mask_start zeroMask (demoDyn 1) (twInit 2) agentMaskInit).1 0) 2 = 0 := rfl
  exact ⟨h,
    ((c7_depot_fallback idExt zeroMask (demoDyn 1) (twInit 2) agentMaskInit 2 0).1 h 0).trans
      (by decide),
    ((c7_depot_fallback idExt zeroMask (demoDyn 1) (twInit 2) agentMaskInit 2 0).1 h 1).trans
      (by decide)⟩

/-! ## Claim C8 — queue re-insertion after an action -/

theorem pushQueues_get? (ptr : ℕ → ℕ) (v : ℕ → ℚ) (a : ℕ) :
    ∀ (l : List Queue) (k i : ℕ),
      (pushQueues ptr v a k l).get? i =
        (l.get? i).map (fun q => if ptr (k + i) ≠ 0 then q ++ [(v (k + i), a)] else q) := by
  intro l
  induction l with
  | nil => intro k i; rfl
  | cons q rest ih =>
    intro k i
    cases i with
    | zero => simp [pushQueues]
    | succ n =>
      have harith : k + 1 + n = k + (n + 1) := by omega
      simp only [pushQueues, List.get?_cons_succ, ih (k + 1) n, harith]

/-- C8: after an agent's action, instance `i` receives exactly one appended
queue entry `(next_time, agent_id)` with `next_time` read from channel 10,
column 0 of the post-action tensor when the recorded index is nonzero, and no
entry otherwise. -/
theorem c8_queue_append {L : Type} (p : Params L) (s : RState) (a i : ℕ) (q : Queue)
    (h : s.queues.get? i = some q) :
    (actOne p s a).queues.get? i =
      some (if actPtr p s a i ≠ 0 then q ++ [((actDyn p s a).1 i 10 0, a)] else q) := by
  show (pushQueues (actPtr p s a) (fun j => (actDyn p s a).1 j 10 0) a 0 s.queues).get? i = _
  rw [pushQueues_get? (actPtr p s a) (fun j => (actDyn p s a).1 j 10 0) a s.queues 0 i, h]
  simp

theorem c8_witness :
    stateA.queues.get? 0 = some [((0 : ℚ), 1), ((5 : ℚ), 2)] ∧
    (actOne demoParamsA stateA 1).queues.get? 0 =
      some (if actPtr demoParamsA stateA 1 0 ≠ 0 then
              [((0 : ℚ), 1), ((5 : ℚ), 2)] ++ [((actDyn demoParamsA stateA 1).1 0 10 0, 1)]
            else [((0 : ℚ), 1), ((5 : ℚ), 2)]) := by
  have h : stateA.queues.get? 0 = some [((0 : ℚ), 1), ((5 : ℚ), 2)] := by decide
  exact ⟨h, c8_queue_append demoParamsA stateA 1 0 [((0 : ℚ), 1), ((5 : ℚ), 2)] h⟩

/-! ## Claim C9 — construction-time validation -/

/-- C9, corrected: construction succeeds exactly when `dynamic_size ≥ 1`; the
fleet size `Agent_n` and the other size parameters are not validated. -/
theorem c9_validation (ss ds hs an : ℤ) :
    (∃ m, initModel ss ds hs an = Except.ok m) ↔ 1 ≤ ds := by
  unfold initModel
  by_cases hlt : ds < 1
  · rw [if_pos hlt]
    constructor
    · rintro ⟨m, hm⟩; cases hm
    · intro h1; omega
  · rw [if_neg hlt]
    exact ⟨fun _ => by omega, fun _ => ⟨_, rfl⟩⟩

/-- C9 as stated is false: a non-positive fleet size (`Agent_n = 0` or `−1`)
does not make construction fail. -/
theorem c9_counterexample :
    initModel 2 2 2 0 = Except.ok ⟨2, 2, 2, 0⟩ ∧
    initModel 2 2 2 (-1) = Except.ok ⟨2, 2, 2, -1⟩ :=
  ⟨rfl, rfl⟩

/-! ## Claim C10 — frame effect of the cohort extraction on the tensors -/

/-- C10, corrected: during cohort extraction, only channel 5 of the live
tensors is written, empty-queue instances are untouched, and the value
written is channel 10 of the head agent's entry in the auxiliary `dynamic`
list (the previous `update_od` snapshot), not of its live tensor. -/
theorem c10_extract_effect (s : RState) (k i c st : ℕ) :
    (s.queues.getD i [] = [] → (extractPhase s).dynCur k i c st = s.dynCur k i c st) ∧
    (c ≠ 5 → (extractPhase s).dynCur k i c st = s.dynCur k i c st) ∧
    (∀ h t, s.queues.getD i [] = h :: t →
      (extractPhase s).dynCur k i 5 st = s.dynList h.2 i 10 st) := by
  refine ⟨?_, ?_, ?_⟩
  · intro hq
    have hq' : s.queues[i]?.getD [] = [] := by simpa using hq
    simp [extractPhase, extractDyn, hq']
  · intro hc
    rcases hq : s.queues[i]?.getD [] with _ | ⟨h, t⟩ <;>
      simp [extractPhase, extractDyn, hq, hc]
  · intro h t hq
    have hq' : s.queues[i]?.getD [] = h :: t := by simpa using hq
    simp [extractPhase, extractDyn, hq']

/-- C10 as stated is false: with the live tensors and the `dynamic` list
disagreeing, the written channel 5 holds the list's value (2), not the head
agent's live channel-10 value (1). -/
theorem c10_counterexample :
    (extractPhase splitState).dynCur 1 0 5 0 = 2 ∧
    splitState.dynCur 1 0 10 0 = 1 ∧ ¬ ((2 : ℚ) = 1) := by
  refine ⟨by decide, by decide, by norm_num⟩

theorem c10_witness :
    splitState.queues.getD 0 [] = [((0 : ℚ), 1)] ∧
    (extractPhase splitState).dynCur 3 0 5 0 = splitState.dynList 1 0 10 0 :=
  ⟨rfl, (c10_extract_effect splitState 3 0 5 0).2.2 ((0 : ℚ), 1) [] rfl⟩

/-! ## Frame lemmas for the tick loop -/

theorem mem_fleetList_lt {x N : ℕ} (h : x ∈ fleetList N) : x < N := by
  rcases List.mem_range'_1.mp h with ⟨h1, h2⟩
  omega

theorem refreshDrop_fold_tourIdx {L : Type} (p : Params L) :
    ∀ (l : List ℕ) (sa : RState × List ℕ),
      (l.foldl (refreshDropBody p) sa).1.tourIdx = sa.1.tourIdx := by
  intro l
  induction l with
  | nil => intro sa; rfl
  | cons a t ih => intro sa; rw [List.foldl_cons, ih]; rfl

theorem refreshDrop_fold_agentMask {L : Type} (p : Params L) :
    ∀ (l : List ℕ) (sa : RState × List ℕ) (a : ℕ), a ∉ l →
      (l.foldl (refreshDropBody p) sa).1.agentMask a = sa.1.agentMask a := by
  intro l
  induction l with
  | nil => intro sa a _; rfl
  | cons b t ih =>
    intro sa a ha
    rw [List.foldl_cons, ih _ _ (fun h => ha (List.mem_cons_of_mem b h))]
    have hab : a ≠ b := fun h => ha (h ▸ List.mem_cons_self b t)
    simp [refreshDropBody, updFam, hab]

theorem refreshDrop_fold_mem {L : Type} (p : Params L) :
    ∀ (l : List ℕ) (sa : RState × List ℕ) (x : ℕ),
      x ∈ (l.foldl (refreshDropBody p) sa).2 → x ∈ sa.2 ∨ x ∈ l := by
  intro l
  induction l with
  | nil => intro sa x hx; exact Or.inl hx
  | cons b t ih =>
    intro sa x hx
    rcases ih _ _ hx with h | h
    · rcases (by simpa [refreshDropBody] using h :
        x ∈ sa.2 ∨ (¬ matSum (p.ext.mask_start (sa.1.mask b) (sa.1.dynCur b)
          sa.1.tw (sa.1.agentMask b)).1 p.B p.S = 0 ∧ x = b)) with h' | ⟨_, rfl⟩
      · exact Or.inl h'
      · exact Or.inr (List.mem_cons_self _ _)
    · exact Or.inr (List.mem_cons_of_mem b h)

theorem inner_fold_tourIdx {L : Type} (p : Params L) :
    ∀ (l : List ℕ) (s : RState), (l.foldl (innerBody p) s).tourIdx = s.tourIdx := by
  intro l
  induction l with
  | nil => intro s; rfl
  | cons a t ih => intro s; rw [List.foldl_cons, ih]; rfl

theorem inner_fold_agentMask {L : Type} (p : Params L) :
    ∀ (l : List ℕ) (s : RState) (a : ℕ), a ∉ l →
      (l.foldl (innerBody p) s).agentMask a = s.agentMask a := by
  intro l
  induction l with
  | nil => intro s a _; rfl
  | cons b t ih =>
    intro s a ha
    rw [List.foldl_cons, ih _ _ (fun h => ha (List.mem_cons_of_mem b h))]
    have hab : a ≠ b := fun h => ha (h ▸ List.mem_cons_self b t)
    simp [innerBody, updFam, hab]

theorem actOne_tourIdx {L : Type} (p : Params L) (s : RState) (b a : ℕ) :
    (actOne p s b).tourIdx a =
      if a = b then s.tourIdx b ++ [actPtr p s b] else s.tourIdx a := rfl

theorem actOne_agentMask_ne {L : Type} (p : Params L) (s : RState) (b a : ℕ)
    (h : a ≠ b) : (actOne p s b).agentMask a = s.agentMask a := by
  simp [actOne, updFam, h]

theorem actStep_tourIdx_length {L : Type} (p : Params L) (s : RState) (b a : ℕ) :
    ((actStep p s b).tourIdx a).length =
      (s.tourIdx a).length + (if a = b then 1 else 0) := by
  unfold actStep innerRefresh
  rw [inner_fold_tourIdx, actOne_tourIdx]
  by_cases h : a = b <;> simp [h]

theorem actStep_agentMask {L : Type} (p : Params L) (s : RState) (b a : ℕ)
    (hb : b < p.N) (ha : p.N ≤ a) :
    (actStep p s b).agentMask a = s.agentMask a := by
  unfold actStep innerRefresh
  rw [inner_fold_agentMask, actOne_agentMask_ne]
  · omega
  · intro hmem
    rcases List.mem_range'_1.mp hmem with ⟨h1, h2⟩
    omega

theorem actPhase_tourIdx_length {L : Type} (p : Params L) (a : ℕ) :
    ∀ (acted : List ℕ) (s : RState),
      ((actPhase p s acted).tourIdx a).length =
        (s.tourIdx a).length + acted.count a := by
  intro acted
  induction acted with
  | nil => intro s; simp [actPhase]
  | cons b t ih =>
    intro s
    show ((actPhase p (actStep p s b) t).tourIdx a).length = _
    rw [ih, actStep_tourIdx_length, List.count_cons]
    by_cases h : a = b <;> simp [h] <;> omega

theorem actPhase_agentMask {L : Type} (p : Params L) (a : ℕ) (ha : p.N ≤ a) :
    ∀ (acted : List ℕ) (s : RState), (∀ x ∈ acted, x < p.N) →
      (actPhase p s acted).agentMask a = s.agentMask a := by
  intro acted
  induction acted with
  | nil => intro s _; rfl
  | cons b t ih =>
    intro s hx
    show (actPhase p (actStep p s b) t).agentMask a = _
    rw [ih _ (fun x h => hx x (List.mem_cons_of_mem b h)),
      actStep_agentMask p s b a (hx b (List.mem_cons_self b t)) ha]

theorem rowSumN_indicator (S : ℕ) :
    rowSumN (fun s => if s = 0 then 0 else 1) S = S - 1 := by
  induction S with
  | zero => rfl
  | succ n ih =>
    rw [rowSumN_succ, ih]
    cases n <;> simp

theorem rowSumN_const (c : ℕ) : ∀ B, rowSumN (fun _ => c) B = B * c := by
  intro B
  induction B with
  | zero => simp [rowSumN]
  | succ n ih => rw [rowSumN_succ, ih]; ring

theorem matSum_agentMaskInit (B S : ℕ) :
    matSum agentMaskInit B S = B * (S - 1) := by
  unfold matSum agentMaskInit
  rw [show (rowSumN (fun i => rowSumN (fun s => if s = 0 then 0 else 1) S) B) =
      rowSumN (fun _ => S - 1) B from by
    exact congrArg (fun g => rowSumN g B) (funext fun i => rowSumN_indicator S)]
  exact rowSumN_const _ B

theorem judgeSum_ne_zero {L : Type} (p : Params L) (s : RState)
    (hN : p.N ≤ 10) (hB : 1 ≤ p.B) (hS : 2 ≤ p.S)
    (hP : ∀ a, p.N ≤ a → s.agentMask a = agentMaskInit) :
    judgeSum s.agentMask p.B p.S ≠ 0 := by
  have h10 : s.agentMask 10 = agentMaskInit := hP 10 hN
  have hterm : matSum (s.agentMask 10) p.B p.S ≤ judgeSum s.agentMask p.B p.S := by
    have := rowSumN_le_of_lt (fun k => matSum (s.agentMask (k + 1)) p.B p.S)
      (show 9 < 10 by omega)
    simpa using this
  rw [h10, matSum_agentMaskInit] at hterm
  have hpos : 1 ≤ p.B * (p.S - 1) :=
    le_trans (by omega) (Nat.mul_le_mul hB (by omega : 1 ≤ p.S - 1))
  omega

theorem refreshDropPhase_tourIdx {L : Type} (p : Params L) (s : RState) :
    (refreshDropPhase p s).1.tourIdx = s.tourIdx :=
  refreshDrop_fold_tourIdx p _ _

theorem refreshDropPhase_agentMask {L : Type} (p : Params L) (s : RState) (a : ℕ)
    (ha : p.N ≤ a) : (refreshDropPhase p s).1.agentMask a = s.agentMask a :=
  refreshDrop_fold_agentMask p _ _ a
    (fun hm => absurd (mem_fleetList_lt hm) (by omega))

theorem refreshDropPhase_acted_lt {L : Type} (p : Params L) (s : RState) :
    ∀ x ∈ (refreshDropPhase p s).2, x < p.N := by
  intro x hx
  rcases refreshDrop_fold_mem p _ _ x hx with h | h
  · exact absurd h (List.not_mem_nil x)
  · exact mem_fleetList_lt h

theorem tick_tourIdx_length {L : Type} (p : Params L) (s : RState) (a : ℕ) :
    ((tick p s).1.tourIdx a).length =
      (s.tourIdx a).length + ((tick p s).2.1.acted).count a := by
  unfold tick
  by_cases h : judgeSum (odPhase p (extractPhase s)).agentMask p.B p.S = 0
  · rw [if_pos h]; rfl
  · rw [if_neg h]
    show ((actPhase p (refreshDropPhase p (odPhase p (extractPhase s))).1
        (refreshDropPhase p (odPhase p (extractPhase s))).2).tourIdx a).length = _
    rw [actPhase_tourIdx_length, refreshDropPhase_tourIdx]
    rfl

theorem tick_no_break_of_init {L : Type} (p : Params L) (s : RState)
    (hN : p.N ≤ 10) (hB : 1 ≤ p.B) (hS : 2 ≤ p.S)
    (hP : ∀ a, p.N ≤ a → s.agentMask a = agentMaskInit) :
    (tick p s).2.2 = false ∧
    (∀ a, p.N ≤ a → (tick p s).1.agentMask a = agentMaskInit) ∧
    (tick p s).2.1.judgeZero = false := by
  have hjz : judgeSum (odPhase p (extractPhase s)).agentMask p.B p.S ≠ 0 :=
    judgeSum_ne_zero p (odPhase p (extractPhase s)) hN hB hS (fun a ha => hP a ha)
  unfold tick
  rw [if_neg hjz]
  refine ⟨rfl, ?_, rfl⟩
  intro a ha
  show (actPhase p (refreshDropPhase p (odPhase p (extractPhase s))).1
      (refreshDropPhase p (odPhase p (extractPhase s))).2).agentMask a = _
  rw [actPhase_agentMask p a ha _ _ (refreshDropPhase_acted_lt p _),
    refreshDropPhase_agentMask p _ a ha]
  exact hP a ha

theorem runLoop_tourIdx_length {L : Type} (p : Params L) (a : ℕ) :
    ∀ (f : ℕ) (s : RState),
      ((runLoop p f s).1.tourIdx a).length =
        (s.tourIdx a).length +
          ((runLoop p f s).2.map (fun lg => lg.acted.count a)).sum := by
  intro f
  induction f with
  | zero => intro s; simp [runLoop]
  | succ n ih =>
    intro s
    rw [show runLoop p (n + 1) s =
        (if (tick p s).2.2 then ((tick p s).1, [(tick p s).2.1])
         else ((runLoop p n (tick p s).1).1,
           (tick p s).2.1 :: (runLoop p n (tick p s).1).2)) from rfl]
    by_cases hbr : (tick p s).2.2
    · rw [if_pos hbr]
      simp only [List.map_cons, List.map_nil, List.sum_cons, List.sum_nil]
      rw [tick_tourIdx_length]
      omega
    · rw [if_neg hbr]
      simp only [List.map_cons, List.sum_cons]
      rw [ih, tick_tourIdx_length]
      omega

theorem runLoop_no_break {L : Type} (p : Params L)
    (hN : p.N ≤ 10) (hB : 1 ≤ p.B) (hS : 2 ≤ p.S) :
    ∀ (f : ℕ) (s : RState), (∀ a, p.N ≤ a → s.agentMask a = agentMaskInit) →
      (runLoop p f s).2.length = f ∧
      ∀ lg ∈ (runLoop p f s).2, lg.judgeZero = false := by
  intro f
  induction f with
  | zero => intro s _; exact ⟨rfl, by simp [runLoop]⟩
  | succ n ih =>
    intro s hP
    obtain ⟨hbr, hPnext, hjz⟩ := tick_no_break_of_init p s hN hB hS hP
    obtain ⟨ih1, ih2⟩ := ih (tick p s).1 hPnext
    have heq : runLoop p (n + 1) s =
        ((runLoop p n (tick p s).1).1,
          (tick p s).2.1 :: (runLoop p n (tick p s).1).2) := by
      rw [show runLoop p (n + 1) s =
          (if (tick p s).2.2 then ((tick p s).1, [(tick p s).2.1])
           else ((runLoop p n (tick p s).1).1,
             (tick p s).2.1 :: (runLoop p n (tick p s).1).2)) from rfl]
      rw [if_neg (by simp [hbr])]
    rw [heq]
    constructor
    · simp [ih1]
    · intro lg hlg
      rcases List.mem_cons.mp hlg with rfl | h
      · exact hjz
      · exact ih2 lg h

theorem lookup_map_self {β : Type} (g : ℕ → β) :
    ∀ (l : List ℕ) (a : ℕ), a ∈ l →
      (l.map (fun x => (x, g x))).lookup a = some (g a) := by
  intro l
  induction l with
  | nil => intro a ha; cases ha
  | cons b t ih =>
    intro a ha
    by_cases hab : a = b
    · subst hab; simp [List.lookup]
    · rcases List.mem_cons.mp ha with rfl | h
      · exact absurd rfl hab
      · simp only [List.map_cons, List.lookup]
        rw [show (a == b) = false from beq_eq_false_iff_ne.mpr hab]
        exact ih a h

/-! ## Claim C2 — the length of the returned sequences -/

/-- C2, corrected: the returned concatenated sequence of an agent has, for
EVERY instance, length equal to the number of ticks in which the agent ran
its (batch-wide) action block — i.e. was kept in `decision_agent_id` — not
the number of ticks in which that instance's scheduling indicator was 1
(indicator-0 ticks still append a zero entry). -/
theorem c2_sequence_length {L : Type} (p : Params L) (dyn0 recs0 : ℕ → Dyn) (a : ℕ)
    (ha : a ∈ fleetList p.N) :
    (rollout p dyn0 recs0).tours.lookup a =
      some (fun i => ((rollout p dyn0 recs0).final.tourIdx a).map (fun v => v i)) ∧
    ∀ i, (((rollout p dyn0 recs0).final.tourIdx a).map (fun v => v i)).length =
      ((rollout p dyn0 recs0).trace.map (fun lg => lg.acted.count a)).sum := by
  constructor
  · exact lookup_map_self
      (fun x => fun i =>
        ((runLoop p (maxSteps p.ext p.S) (initState p dyn0 recs0)).1.tourIdx x).map
          (fun v => v i))
      (fleetList p.N) a ha
  · intro i
    rw [List.length_map]
    show ((runLoop p (maxSteps p.ext p.S) (initState p dyn0 recs0)).1.tourIdx a).length =
      ((runLoop p (maxSteps p.ext p.S) (initState p dyn0 recs0)).2.map
        (fun lg => lg.acted.count a)).sum
    have h := runLoop_tourIdx_length p a (maxSteps p.ext p.S) (initState p dyn0 recs0)
    rw [show ((initState p dyn0 recs0).tourIdx a).length = 0 from rfl] at h
    simpa using h

/-- C2 as stated is false on a concrete run: agent 2's scheduling indicator
for the single instance was 1 on exactly one of the two ticks, yet the
returned sequence for that instance has length 2. -/
theorem c2_counterexample :
    (demoA.trace.map (fun lg => lg.dmask 2 0)).sum = 1 ∧
    (demoA.tours.getD 1 (0, fun _ => [])).1 = 2 ∧
    ((demoA.tours.getD 1 (0, fun _ => [])).2 0).length = 2 ∧
    (1 : ℕ) ≠ 2 := by
  refine ⟨by decide, by decide, by decide, by decide⟩

theorem c2_witness :
    2 ∈ fleetList demoParamsA.N ∧
    ((rollout demoParamsA demoDyn zeroRecs).tours.lookup 2 =
      some (fun i =>
        ((rollout demoParamsA demoDyn zeroRecs).final.tourIdx 2).map (fun v => v i)) ∧
     ∀ i, (((rollout demoParamsA demoDyn zeroRecs).final.tourIdx 2).map
        (fun v => v i)).length =
      ((rollout demoParamsA demoDyn zeroRecs).trace.map
        (fun lg => lg.acted.count 2)).sum) :=
  ⟨by decide, c2_sequence_length demoParamsA demoDyn zeroRecs 2 (by decide)⟩

/-! ## Claim C3 — termination of the tick loop -/

/-- C3, corrected: the `mask_judge` termination check sums the TEN hard-coded
activity masks, including agents outside the fleet, whose masks are never
updated; hence for any fleet size `Agent_n ≤ 10` (with at least one instance
and at least two stations) the check can never fire and the loop always runs
to the step cap. -/
theorem c3_no_early_halt {L : Type} (p : Params L) (dyn0 recs0 : ℕ → Dyn)
    (hN : p.N ≤ 10) (hB : 1 ≤ p.B) (hS : 2 ≤ p.S) :
    (rollout p dyn0 recs0).trace.length = maxSteps p.ext p.S ∧
    ∀ lg ∈ (rollout p dyn0 recs0).trace, lg.judgeZero = false :=
  runLoop_no_break p hN hB hS (maxSteps p.ext p.S) (initState p dyn0 recs0)
    (fun _ _ => rfl)

/-- C3 as stated is false on a concrete run: at the start of tick 2 the only
fleet agent's activity mask is identically zero, yet the loop does not
terminate there — it runs to the step cap. -/
theorem c3_counterexample :
    fleetList demoParamsB.N = [1] ∧
    matSum ((demoB.trace.getD 1 dummyLog).amSnap 1) 1 2 = 0 ∧
    (demoB.trace.getD 1 dummyLog).judgeZero = false ∧
    demoB.trace.length = maxSteps zeroActivityExt 2 := by
  refine ⟨by decide, by decide, by decide, by decide⟩

theorem c3_witness :
    demoParamsB.N ≤ 10 ∧ 1 ≤ demoParamsB.B ∧ 2 ≤ demoParamsB.S ∧
    ((rollout demoParamsB demoDyn zeroRecs).trace.length =
        maxSteps demoParamsB.ext demoParamsB.S ∧
      ∀ lg ∈ (rollout demoParamsB demoDyn zeroRecs).trace, lg.judgeZero = false) :=
  ⟨by decide, by decide, by decide,
    c3_no_early_halt demoParamsB demoDyn zeroRecs (by decide) (by decide) (by decide)⟩

/-! ## Claim C4 — which agent ids appear in the returned dictionaries -/

theorem map_fst_pairs {β : Type} (g : ℕ → β) :
    ∀ l : List ℕ, (l.map (fun x => (x, g x))).map Prod.fst = l := by
  intro l
  induction l with
  | nil => rfl
  | cons b t ih => simp only [List.map_cons, ih]

/-- C4, corrected: the returned index and log-probability dictionaries hold
exactly the agent ids `1 .. Agent_n − 1` (`range(1, self.agent_number)`), not
`1 .. Agent_n`. -/
theorem c4_returned_ids {L : Type} (p : Params L) (dyn0 recs0 : ℕ → Dyn) :
    (rollout p dyn0 recs0).tours.map Prod.fst = List.range' 1 (p.N - 1) ∧
    (rollout p dyn0 recs0).logps.map Prod.fst = List.range' 1 (p.N - 1) := by
  constructor
  · show ((fleetList p.N).map (fun a => (a, fun i =>
      ((runLoop p (maxSteps p.ext p.S) (initState p dyn0 recs0)).1.tourIdx a).map
        (fun v => v i)))).map Prod.fst = List.range' 1 (p.N - 1)
    exact map_fst_pairs _ (fleetList p.N)
  · show ((fleetList p.N).map (fun a => (a, fun i =>
      ((runLoop p (maxSteps p.ext p.S) (initState p dyn0 recs0)).1.tourLogp a).map
        (fun v => v i)))).map Prod.fst = List.range' 1 (p.N - 1)
    exact map_fst_pairs _ (fleetList p.N)

/-- C4 as stated is false on a concrete run: with `Agent_n = 2` the returned
dictionary holds only agent id 1; id 2 (= `Agent_n`) is absent. -/
theorem c4_counterexample :
    demoParamsB.N = 2 ∧ demoB.tours.map Prod.fst = [1] ∧
    ¬ ((2 : ℕ) ∈ demoB.tours.map Prod.fst) := by
  refine ⟨rfl, by decide, by decide⟩

end OffCB
